import Mathlib

/-!
Verification of the syllabus ingestion and calendar synchronization pipeline
of the docusense repository, embedded shallowly in Lean.

The frontend stores calendar dates as strings; a canonical stored date is a
triple (year, month, day).  JavaScript Date comparisons on canonical ISO
strings order dates chronologically, which coincides with the numeric order
of the key y*10000 + m*100 + d.  Date fields may also be empty (the empty
string) or unparseable, which the modal code distinguishes.
-/

/-- Calendar date triple (year, month, day) as carried by a canonical
stored date string. -/
structure SDate where
  y : Nat
  m : Nat
  d : Nat
deriving DecidableEq, Repr

/-- Numeric key whose order coincides with the chronological order that a
JS Date comparison induces on canonical date strings. -/
def SDate.key (a : SDate) : Nat := a.y * 10000 + a.m * 100 + a.d

/-- Value of one date field as the modal in SyllabusModal.tsx sees it after
calling new Date: the empty string, an unparseable string (NaN timestamp),
or a parsed calendar date. -/
inductive JSDateField
  | empty
  | invalid
  | valid (d : SDate)
deriving DecidableEq, Repr

namespace SyllabusModal

/-- Embedding of validateDates from SyllabusModal.tsx (lines 95-124): any
empty field short-circuits to null, any unparseable field yields the
invalid-format message, and otherwise the two chronological checks run in
order, each returning its own message. -/
def validateDates : JSDateField → JSDateField → JSDateField → Option String
  | .empty, _, _ => none
  | _, .empty, _ => none
  | _, _, .empty => none
  | .invalid, _, _ => some "Invalid date format"
  | _, .invalid, _ => some "Invalid date format"
  | _, _, .invalid => some "Invalid date format"
  | .valid fc, .valid lc, .valid fe =>
      if lc.key < fc.key then some "Last class date must be after first class date"
      else if fe.key < lc.key then some "Final exam date must be after last class date"
      else none

/-- Predicate picking out the two date-order messages of
SyllabusModal.tsx, as opposed to the invalid-format message. -/
def isOrderDiag : Option String → Bool
  | some s =>
      s == "Last class date must be after first class date" ||
      s == "Final exam date must be after last class date"
  | none => false

end SyllabusModal

namespace ModalApi

/-- Guard of one pairwise check in the validateDates variant embedded in
services/api.ts (lines 207-223): the check fires only when both fields are
non-empty and the first parsed date is strictly later than the second. -/
def checkPair : Option SDate → Option SDate → Bool
  | some a, some b => b.key < a.key
  | _, _ => false

/-- Embedding of validateDates from the modal variant inside
services/api.ts (lines 207-223): three independent pairwise checks, each
guarded only by the presence of its own two fields. -/
def validateDates (first_class last_class final_exam : Option SDate) : Option String :=
  if checkPair first_class last_class then
    some "First class date cannot be after last class date"
  else if checkPair first_class final_exam then
    some "First class date cannot be after final exam date"
  else if checkPair last_class final_exam then
    some "Last class date cannot be after final exam date"
  else none

/-- Predicate picking out the three date-order messages of the api.ts
variant. -/
def isOrderDiag : Option String → Bool
  | some s =>
      s == "First class date cannot be after last class date" ||
      s == "First class date cannot be after final exam date" ||
      s == "Last class date cannot be after final exam date"
  | none => false

end ModalApi

/-- Claim C1 counterexample: the api.ts validateDates produces a date-order
diagnostic although the last-class field is absent (first class 2026-01-10,
last class empty, final exam 2026-01-05), contradicting the claim that no
order diagnostic is produced when any of the three dates is absent. -/
theorem c1_absent_field_still_diagnosed :
    ModalApi.validateDates (some ⟨2026, 1, 10⟩) none (some ⟨2026, 1, 5⟩) =
      some "First class date cannot be after final exam date" ∧
    ModalApi.isOrderDiag
      (ModalApi.validateDates (some ⟨2026, 1, 10⟩) none (some ⟨2026, 1, 5⟩)) = true := by
  constructor <;> decide

/-- Claim C1, amended: the SyllabusModal.tsx validateDates produces a
date-order diagnostic if and only if all three dates are present and
firstClass ≤ lastClass ≤ finalExam fails (the single returned message is
the unique diagnostic, and any absent field yields none); the api.ts
variant agrees on fully-present triples, but checks the three pairs
independently, so with the middle field absent it still reports a
violation of the outer pair. -/
theorem c1_date_order_diagnostic (fc lc fe : SDate) (x y : JSDateField) :
    (SyllabusModal.isOrderDiag
        (SyllabusModal.validateDates (.valid fc) (.valid lc) (.valid fe)) =
      !(decide (fc.key ≤ lc.key) && decide (lc.key ≤ fe.key))) ∧
    SyllabusModal.validateDates .empty x y = none ∧
    SyllabusModal.validateDates x .empty y = none ∧
    SyllabusModal.validateDates x y .empty = none ∧
    (ModalApi.isOrderDiag
        (ModalApi.validateDates (some fc) (some lc) (some fe)) =
      !(decide (fc.key ≤ lc.key) && decide (lc.key ≤ fe.key))) ∧
    (ModalApi.validateDates (some fc) none (some fe) =
      if fe.key < fc.key then some "First class date cannot be after final exam date"
      else none) := by
  refine ⟨?_, ?_, ?_, ?_, ?_, ?_⟩
  · by_cases h1 : lc.key < fc.key
    · have h2 : ¬ fc.key ≤ lc.key := by omega
      simp [SyllabusModal.validateDates, SyllabusModal.isOrderDiag, h1, h2]
    · by_cases h3 : fe.key < lc.key
      · have h4 : ¬ lc.key ≤ fe.key := by omega
        simp [SyllabusModal.validateDates, SyllabusModal.isOrderDiag, h1, h3, h4]
      · have h5 : fc.key ≤ lc.key := by omega
        have h6 : lc.key ≤ fe.key := by omega
        simp [SyllabusModal.validateDates, SyllabusModal.isOrderDiag, h1, h3, h5, h6]
  · cases x <;> cases y <;> rfl
  · cases x <;> cases y <;> rfl
  · cases x <;> cases y <;> rfl
  · by_cases h1 : lc.key < fc.key
    · have h2 : ¬ fc.key ≤ lc.key := by omega
      simp [ModalApi.validateDates, ModalApi.checkPair, ModalApi.isOrderDiag, h1, h2]
    · by_cases h3 : fe.key < fc.key
      · have h4 : fc.key ≤ lc.key := by omega
        by_cases h5 : fe.key < lc.key
        · have h6 : ¬ lc.key ≤ fe.key := by omega
          simp [ModalApi.validateDates, ModalApi.checkPair, ModalApi.isOrderDiag,
            h1, h3, h5, h6]
        · omega
      · by_cases h5 : fe.key < lc.key
        · have h6 : ¬ lc.key ≤ fe.key := by omega
          simp [ModalApi.validateDates, ModalApi.checkPair, ModalApi.isOrderDiag,
            h1, h3, h5, h6]
        · have h6 : fc.key ≤ lc.key := by omega
          have h7 : lc.key ≤ fe.key := by omega
          simp [ModalApi.validateDates, ModalApi.checkPair, ModalApi.isOrderDiag,
            h1, h3, h5, h6, h7]
  · by_cases h : fe.key < fc.key <;>
      simp [ModalApi.validateDates, ModalApi.checkPair, h]

namespace SyllabusModal

/-- Embedding of the save-button disabled flag of SyllabusModal.tsx
(line 202): the button is disabled while a save is in flight or while
validateDates reports any diagnostic. -/
def saveDisabled (isSaving : Bool) (fc lc fe : JSDateField) : Bool :=
  isSaving || (validateDates fc lc fe).isSome

/-- Statement that a click on the save button of SyllabusModal.tsx reaches
handleSave, and hence issues the patch request: this happens exactly when
the button is not disabled. -/
def patchIssued (isSaving : Bool) (fc lc fe : JSDateField) : Bool :=
  !(saveDisabled isSaving fc lc fe)

end SyllabusModal

namespace ModalApi

/-- Actions the edit and save button of the api.ts modal variant can
perform. -/
inductive SaveAction
  | patchRequest
  | enterEdit
deriving DecidableEq, Repr

/-- Embedding of the edit and save button of the api.ts modal variant
(lines 281-298): in editing mode a click runs handleSave, which issues the
patch request unconditionally; otherwise the click merely enters editing
mode.  The validateDates result is not consulted. -/
def saveButtonClick (isEditing : Bool) : List SaveAction :=
  if isEditing then [.patchRequest] else [.enterEdit]

end ModalApi

/-- Claim C2 counterexample: with the edited dates first class 2026-05-10,
last class 2026-01-10, final exam 2026-06-01 the order invariant is
violated, and the save button of SyllabusModal.tsx is disabled, so the
patch is never issued — the mutation is rejected client-side rather than
persisted with a warning. -/
theorem c2_violating_edit_blocked :
    SyllabusModal.isOrderDiag
      (SyllabusModal.validateDates (.valid ⟨2026, 5, 10⟩) (.valid ⟨2026, 1, 10⟩)
        (.valid ⟨2026, 6, 1⟩)) = true ∧
    SyllabusModal.patchIssued false (.valid ⟨2026, 5, 10⟩) (.valid ⟨2026, 1, 10⟩)
      (.valid ⟨2026, 6, 1⟩) = false := by
  constructor <;> decide

/-- Claim C2, amended: in the api.ts modal variant a save click in editing
mode issues the patch regardless of any date-order diagnostic, which is
shown only as a warning; in the SyllabusModal.tsx variant the save button
is disabled whenever validateDates reports a diagnostic, so an edit whose
dates violate the order invariant is blocked client-side instead of being
persisted. -/
theorem c2_save_gating (fc lc fe : JSDateField)
    (h : SyllabusModal.isOrderDiag (SyllabusModal.validateDates fc lc fe) = true) :
    SyllabusModal.patchIssued false fc lc fe = false ∧
    ModalApi.SaveAction.patchRequest ∈ ModalApi.saveButtonClick true := by
  constructor
  · cases hv : SyllabusModal.validateDates fc lc fe with
    | none => rw [hv] at h; simp [SyllabusModal.isOrderDiag] at h
    | some s => simp [SyllabusModal.patchIssued, SyllabusModal.saveDisabled, hv]
  · simp [ModalApi.saveButtonClick]

/-- Witness for c2_save_gating at the concrete violating triple of dates
used in the counterexample for the modal, shifted by one year. -/
theorem c2_save_gating_witness :
    SyllabusModal.patchIssued false (.valid ⟨2027, 5, 10⟩) (.valid ⟨2027, 1, 10⟩)
      (.valid ⟨2027, 6, 1⟩) = false ∧
    ModalApi.SaveAction.patchRequest ∈ ModalApi.saveButtonClick true :=
  c2_save_gating (.valid ⟨2027, 5, 10⟩) (.valid ⟨2027, 1, 10⟩) (.valid ⟨2027, 6, 1⟩)
    (by decide)

/-- Actions the sync button of the api.ts modal variant can perform. -/
inductive SyncClickAction
  | getStatus
  | initiateAuth
  | syncRequest
deriving DecidableEq, Repr

/-- Embedding of the sync-button click handler of the api.ts modal variant
(lines 476-504): it first requests the calendar status; when the status is
not connected it initiates the Google authorization flow and returns
without syncing, otherwise it sends the sync request. -/
def syncButtonClick (connected : Bool) : List SyncClickAction :=
  if !connected then [.getStatus, .initiateAuth]
  else [.getStatus, .syncRequest]

/-- Claim C5: the sync request is sent only in the connected branch; when
the reported status is not connected, no sync request is made and the
authorization flow is initiated instead. -/
theorem c5_sync_only_when_connected :
    SyncClickAction.syncRequest ∈ syncButtonClick true ∧
    SyncClickAction.syncRequest ∉ syncButtonClick false ∧
    SyncClickAction.initiateAuth ∈ syncButtonClick false ∧
    SyncClickAction.initiateAuth ∉ syncButtonClick true ∧
    SyncClickAction.getStatus ∈ syncButtonClick true ∧
    SyncClickAction.getStatus ∈ syncButtonClick false := by
  decide

/-- Embedding of the initial editedFields state of the api.ts modal
variant (lines 133-140): each incoming important-date field, possibly
missing on the wire, is coerced with a fallback to the empty string. -/
def initDateField : Option String → String
  | none => ""
  | some s => s

/-- Claim C6 counterexample: an absent important-date field and a
present-but-empty one receive the same representation in the modal state,
so the record carries no absent marker distinguishable from the empty
value. -/
theorem c6_absent_collapses_to_empty :
    initDateField none = initDateField (some "") := rfl

/-- Claim C6, amended: the important-date fields are plain strings, not
tagged optionals; the modal state maps a field to the empty string exactly
when it is absent or present but empty, so the two cases are collapsed
into the single empty-string sentinel. -/
theorem c6_empty_string_sentinel (o : Option String) :
    initDateField o = "" ↔ (o = none ∨ o = some "") := by
  cases o <;> simp [initDateField]

/-- Witness for c6_empty_string_sentinel at the concrete present-but-empty
field. -/
theorem c6_empty_string_sentinel_witness :
    initDateField (some "") = "" :=
  (c6_empty_string_sentinel (some "")).mpr (Or.inr rfl)

/-- Accent colors of the ClassCard component. -/
inductive AccentColor
  | red
  | orange
  | yellow
  | green
  | blue
  | purple
  | pink
  | indigo
deriving DecidableEq, Repr

/-- Instructor member of the Syllabus interface of syllabiApi.ts. -/
structure Instructor where
  name : String
  email : String
deriving DecidableEq, Repr

/-- Term member of the Syllabus interface of syllabiApi.ts. -/
structure Term where
  semester : String
  year : String
deriving DecidableEq, Repr

/-- Meeting-info member of the Syllabus interface of syllabiApi.ts. -/
structure MeetingInfo where
  days : String
  time : String
  location : String
deriving DecidableEq, Repr

/-- Embedding of the important_dates member of the Syllabus interface of
syllabiApi.ts (lines 23-28): every field is a plain string; the empty
string stands for an absent date. -/
structure ImportantDatesTS where
  first_class : String
  last_class : String
  midterms : List String
  final_exam : String
deriving DecidableEq, Repr

/-- Embedding of the Syllabus interface of syllabiApi.ts (lines 4-32). -/
structure Syllabus where
  id : Nat
  filename : String
  course_code : String
  course_name : String
  instructor : Instructor
  term : Term
  description : String
  meeting_info : MeetingInfo
  important_dates : ImportantDatesTS
  grading_policy : List (String × String)
  schedule_summary : String
  accent_color : Option AccentColor
deriving DecidableEq, Repr

namespace Dashboard

/-- Embedding of the success continuation of handleColorChange in the
dashboard page (lines 138-154): the local list is mapped, replacing the
accent color of exactly the records whose id matches. -/
def updateSyllabiColor (l : List Syllabus) (sid : Nat) (c : AccentColor) : List Syllabus :=
  l.map fun s => if s.id = sid then { s with accent_color := some c } else s

/-- Embedding of handleColorChange in the dashboard page (lines 138-154),
with the outcome of the awaited updateSyllabusColor call made explicit: on
success the local list is updated, on failure only the error message is
set and the list is returned untouched. -/
def handleColorChange (callResult : Except Unit Unit) (l : List Syllabus)
    (sid : Nat) (c : AccentColor) : List Syllabus × Option String :=
  match callResult with
  | .ok _ => (updateSyllabiColor l sid c, none)
  | .error _ => (l, some "Failed to update color. Please try again.")

end Dashboard

/-- Claim C8: updating the accent color of record sid touches, at every
position of the list, nothing but the accent_color field: the length is
preserved, every other field at every position is unchanged, a record with
a different id is unchanged entirely, and the record with the matching id
changes only its accent_color. -/
theorem c8_color_update_frame (l : List Syllabus) (sid : Nat) (c : AccentColor) (i : Nat) :
    (Dashboard.updateSyllabiColor l sid c).length = l.length ∧
    (Dashboard.updateSyllabiColor l sid c)[i]?.map Syllabus.id = l[i]?.map Syllabus.id ∧
    (Dashboard.updateSyllabiColor l sid c)[i]?.map Syllabus.filename =
      l[i]?.map Syllabus.filename ∧
    (Dashboard.updateSyllabiColor l sid c)[i]?.map Syllabus.course_code =
      l[i]?.map Syllabus.course_code ∧
    (Dashboard.updateSyllabiColor l sid c)[i]?.map Syllabus.course_name =
      l[i]?.map Syllabus.course_name ∧
    (Dashboard.updateSyllabiColor l sid c)[i]?.map Syllabus.instructor =
      l[i]?.map Syllabus.instructor ∧
    (Dashboard.updateSyllabiColor l sid c)[i]?.map Syllabus.term = l[i]?.map Syllabus.term ∧
    (Dashboard.updateSyllabiColor l sid c)[i]?.map Syllabus.description =
      l[i]?.map Syllabus.description ∧
    (Dashboard.updateSyllabiColor l sid c)[i]?.map Syllabus.meeting_info =
      l[i]?.map Syllabus.meeting_info ∧
    (Dashboard.updateSyllabiColor l sid c)[i]?.map Syllabus.important_dates =
      l[i]?.map Syllabus.important_dates ∧
    (Dashboard.updateSyllabiColor l sid c)[i]?.map Syllabus.grading_policy =
      l[i]?.map Syllabus.grading_policy ∧
    (Dashboard.updateSyllabiColor l sid c)[i]?.map Syllabus.schedule_summary =
      l[i]?.map Syllabus.schedule_summary ∧
    (∀ s, l[i]? = some s → s.id ≠ sid →
      (Dashboard.updateSyllabiColor l sid c)[i]? = some s) ∧
    (∀ s, l[i]? = some s → s.id = sid →
      (Dashboard.updateSyllabiColor l sid c)[i]? =
        some { s with accent_color := some c }) := by
  cases hs : l[i]? with
  | none =>
      refine ⟨by simp [Dashboard.updateSyllabiColor], ?_, ?_, ?_, ?_, ?_, ?_, ?_, ?_, ?_,
        ?_, ?_, ?_, ?_⟩ <;>
        simp [Dashboard.updateSyllabiColor, List.getElem?_map, hs]
  | some s =>
      by_cases hid : s.id = sid <;>
        refine ⟨by simp [Dashboard.updateSyllabiColor], ?_, ?_, ?_, ?_, ?_, ?_, ?_, ?_, ?_,
          ?_, ?_, ?_, ?_⟩ <;>
        simp [Dashboard.updateSyllabiColor, List.getElem?_map, hs, hid]

/-- Concrete two-record list used to witness the frame theorem. -/
def sylA : Syllabus :=
  ⟨1, "a.pdf", "CS101", "Intro to CS", ⟨"Ada", "ada@u.edu"⟩, ⟨"Fall", "2026"⟩,
    "surveys computing", ⟨"MWF", "9:00", "B1"⟩,
    ⟨"2026-01-05", "2026-04-20", [], "2026-05-01"⟩, [], "", none⟩

/-- Second concrete record used to witness the frame theorem. -/
def sylB : Syllabus :=
  ⟨2, "b.pdf", "MA201", "Linear Algebra", ⟨"Emmy", "emmy@u.edu"⟩, ⟨"Spring", "2027"⟩,
    "matrices", ⟨"TR", "11:00", "C2"⟩,
    ⟨"2027-01-11", "2027-04-26", ["2027-03-01"], "2027-05-03"⟩, [], "", some .blue⟩

/-- Witness for c8_color_update_frame on a concrete two-record list: the
record with the other id is untouched, and the matching record changes
only its accent color. -/
theorem c8_color_update_frame_witness :
    (Dashboard.updateSyllabiColor [sylA, sylB] 2 AccentColor.red)[0]? = some sylA ∧
    (Dashboard.updateSyllabiColor [sylA, sylB] 2 AccentColor.red)[1]? =
      some { sylB with accent_color := some AccentColor.red } := by
  constructor
  · exact (c8_color_update_frame [sylA, sylB] 2 .red 0).2.2.2.2.2.2.2.2.2.2.2.2.1
      sylA rfl (by decide)
  · exact (c8_color_update_frame [sylA, sylB] 2 .red 1).2.2.2.2.2.2.2.2.2.2.2.2.2
      sylB rfl rfl

/-- Claim C10: when the awaited color-update call rejects, the locally
held list of syllabi is returned untouched and only the error message is
set; the list is replaced by the updated one only on success. -/
theorem c10_error_leaves_list (l : List Syllabus) (sid : Nat) (c : AccentColor) :
    (Dashboard.handleColorChange (.error ()) l sid c).1 = l ∧
    (Dashboard.handleColorChange (.error ()) l sid c).2.isSome = true ∧
    (Dashboard.handleColorChange (.ok ()) l sid c).1 =
      Dashboard.updateSyllabiColor l sid c :=
  ⟨rfl, rfl, rfl⟩

/-- File as offered to the upload components: declared MIME type, name and
size in bytes. -/
structure UploadFile where
  mime : String
  name : String
  size : Nat
deriving DecidableEq, Repr

namespace UploadModal

/-- Extension of a file name as computed in UploadModal.tsx line 20: split
on the dot, take the last component, lowercase it.  The fold restarts the
component at every dot, so it ends holding the characters after the last
dot, or the whole name when there is no dot, exactly as split and pop
do. -/
def fileExt (name : String) : String :=
  ⟨(name.toList.foldl (fun acc c => if c = '.' then [] else acc ++ [c]) []).map
    Char.toLower⟩

/-- Type test of UploadModal.tsx lines 22-25: the MIME type is the PDF or
DOCX type, or the lowercased extension is pdf or docx. -/
def isValidType (f : UploadFile) : Bool :=
  f.mime == "application/pdf" ||
  f.mime == "application/vnd.openxmlformats-officedocument.wordprocessingml.document" ||
  fileExt f.name == "pdf" ||
  fileExt f.name == "docx"

/-- Result of validateFile: the returned flag, the error message set, and
the stored selected file. -/
structure ValidateOutcome where
  ok : Bool
  err : Option String
  file : Option UploadFile
deriving DecidableEq, Repr

/-- Embedding of validateFile in UploadModal.tsx (lines 18-42): an invalid
type sets the format error and clears the selection; an oversized file
sets the size error and clears the selection; otherwise the file is stored
and the error cleared. -/
def validateFile (f : UploadFile) : ValidateOutcome :=
  if !isValidType f then
    ⟨false, some "Please upload only PDF or DOCX files", none⟩
  else if f.size > 10 * 1024 * 1024 then
    ⟨false, some "File size must be less than 10MB", none⟩
  else
    ⟨true, none, some f⟩

/-- Embedding of handleSubmit in UploadModal.tsx (lines 64-99): the upload
request is sent exactly when a selected file is stored; with no stored
file only an error message is set. -/
def submitIssuesUpload (stored : Option UploadFile) : Bool :=
  stored.isSome

end UploadModal

namespace UploadForm

/-- Extension filter of the UploadForm file-input accept attribute
(line 41). -/
def acceptedExts : List String := [".pdf", ".docx", ".txt"]

/-- Embedding of handleFileSelect in UploadForm: the selected file is
stored unconditionally, with no validation of type or size. -/
def handleFileSelect (f : UploadFile) : Option UploadFile := some f

/-- Embedding of handleUpload in UploadForm: the upload request is sent
whenever a file is stored. -/
def handleUpload (stored : Option UploadFile) : Bool :=
  stored.isSome

end UploadForm

/-- Claim C7 counterexample: a plain-text file is neither PDF nor DOCX,
yet the UploadForm flow stores it on selection and sends the upload
request for it — and its extension is even in the accept filter of that
form. -/
theorem c7_txt_uploaded_without_validation :
    UploadForm.handleUpload (UploadForm.handleFileSelect ⟨"text/plain", "notes.txt", 100⟩)
      = true ∧
    UploadModal.isValidType ⟨"text/plain", "notes.txt", 100⟩ = false ∧
    ".txt" ∈ UploadForm.acceptedExts := by
  refine ⟨rfl, by decide, by decide⟩

/-- Claim C7, amended: in the UploadModal path the upload is gated by
validateFile — a file that is not PDF or DOCX (by MIME type or extension)
is rejected with an error and the selection cleared before any request, a
valid small file is stored, and the submit handler sends the request
exactly when a file is stored; the UploadForm path, by contrast, performs
no client-side format validation, stores any selected file (its picker
filter even admits .txt) and uploads it. -/
theorem c7_upload_gating (f : UploadFile) :
    ((UploadModal.validateFile f).file =
      if UploadModal.isValidType f && decide (f.size ≤ 10 * 1024 * 1024) then some f
      else none) ∧
    (UploadModal.isValidType f = false →
      (UploadModal.validateFile f).err.isSome = true ∧
      (UploadModal.validateFile f).file = none) ∧
    UploadModal.submitIssuesUpload (UploadModal.validateFile f).file =
      (UploadModal.validateFile f).ok ∧
    UploadForm.handleUpload (UploadForm.handleFileSelect f) = true := by
  by_cases hv : UploadModal.isValidType f
  · by_cases hsz : f.size > 10 * 1024 * 1024
    · have h1 : ¬ f.size ≤ 10 * 1024 * 1024 := by omega
      refine ⟨?_, ?_, ?_, rfl⟩ <;>
        simp [UploadModal.validateFile, UploadModal.submitIssuesUpload, hv, hsz, h1]
    · have h1 : f.size ≤ 10 * 1024 * 1024 := by omega
      refine ⟨?_, ?_, ?_, rfl⟩ <;>
        simp [UploadModal.validateFile, UploadModal.submitIssuesUpload, hv, hsz, h1]
  · refine ⟨?_, ?_, ?_, rfl⟩ <;>
      simp [UploadModal.validateFile, UploadModal.submitIssuesUpload, hv]

/-- Witness for c7_upload_gating at a concrete PNG file, discharging the
invalid-type hypothesis of the gating conjunct. -/
theorem c7_upload_gating_witness :
    (UploadModal.validateFile ⟨"image/png", "a.png", 5⟩).err.isSome = true ∧
    (UploadModal.validateFile ⟨"image/png", "a.png", 5⟩).file = none :=
  (c7_upload_gating ⟨"image/png", "a.png", 5⟩).2.1 (by decide)

/-- Claim C9: every file larger than 10 * 1024 * 1024 bytes fails
validateFile — the flag is false, an error message is set, and the stored
selection is cleared, so the submit handler can send no request for it. -/
theorem c9_size_limit (f : UploadFile) (h : f.size > 10 * 1024 * 1024) :
    (UploadModal.validateFile f).ok = false ∧
    (UploadModal.validateFile f).err.isSome = true ∧
    (UploadModal.validateFile f).file = none ∧
    UploadModal.submitIssuesUpload (UploadModal.validateFile f).file = false := by
  by_cases hv : UploadModal.isValidType f <;>
    simp [UploadModal.validateFile, UploadModal.submitIssuesUpload, hv, h]

/-- Witness for c9_size_limit at a concrete oversized PDF. -/
theorem c9_size_limit_witness :
    (UploadModal.validateFile ⟨"application/pdf", "big.pdf", 10485761⟩).ok = false ∧
    (UploadModal.validateFile ⟨"application/pdf", "big.pdf", 10485761⟩).err.isSome = true ∧
    (UploadModal.validateFile ⟨"application/pdf", "big.pdf", 10485761⟩).file = none ∧
    UploadModal.submitIssuesUpload
      (UploadModal.validateFile ⟨"application/pdf", "big.pdf", 10485761⟩).file = false :=
  c9_size_limit ⟨"application/pdf", "big.pdf", 10485761⟩ (by decide)

/-- Kind of a record date field pushed to the calendar. -/
inductive DateFieldKind
  | firstClass
  | lastClass
  | midterm
  | finalExam
deriving DecidableEq, Repr

/-- Modelled from the spec: the SyncEventMapping key of section 3,
(syllabusId, dateFieldKind, occurrenceIndex); the backend synchronizer is
not under src, so it is modelled from sections 3 and 4.5. -/
structure SyncKey where
  syllabusId : Nat
  kind : DateFieldKind
  occurrenceIndex : Nat
deriving DecidableEq, Repr

/-- Modelled from the spec: one SyncEventMapping of section 3 — key,
external event identifier, and last-synced value of the date. -/
structure SyncMapping where
  key : SyncKey
  eventId : Nat
  lastDate : SDate
deriving DecidableEq, Repr

/-- Modelled from the spec: the mapping store of the Calendar Synchronizer
together with a supply of fresh external event identifiers. -/
structure SyncState where
  mappings : List SyncMapping
  nextEventId : Nat
deriving DecidableEq, Repr

/-- Modelled from the spec: the created, updated and unchanged counts that
syncRecord aggregates (section 4.5 step 3). -/
structure SyncCounts where
  created : Nat
  updated : Nat
  unchanged : Nat
deriving DecidableEq, Repr

/-- Modelled from the spec: the date fields of a stored record that the
synchronizer reads (importantDates of section 3). -/
structure SyncedRecord where
  id : Nat
  firstClass : Option SDate
  lastClass : Option SDate
  midterms : List SDate
  finalExam : Option SDate
deriving DecidableEq, Repr

namespace CalendarSync

/-- Fields contributed by one optional date: the key occurrence index of a
non-midterm field is zero. -/
def optField (sid : Nat) (k : DateFieldKind) : Option SDate → List (SyncKey × SDate)
  | none => []
  | some d => [(⟨sid, k, 0⟩, d)]

/-- Fields contributed by the midterm sequence, numbered from i by
occurrence index. -/
def midtermFields (sid : Nat) : Nat → List SDate → List (SyncKey × SDate)
  | _, [] => []
  | i, d :: ds => (⟨sid, .midterm, i⟩, d) :: midtermFields sid (i + 1) ds

/-- Modelled from the spec: the populated date fields of a record in the
order of section 4.5 step 1 — first class, last class, each midterm, final
exam — with the occurrence index disambiguating midterms. -/
def eventFields (r : SyncedRecord) : List (SyncKey × SDate) :=
  optField r.id .firstClass r.firstClass ++ optField r.id .lastClass r.lastClass ++
    midtermFields r.id 0 r.midterms ++ optField r.id .finalExam r.finalExam

/-- Mapping lookup by key (section 4.5 step 2). -/
def lookup (st : SyncState) (k : SyncKey) : Option SyncMapping :=
  st.mappings.find? fun m => m.key == k

/-- Replacement of the stored date at a key, leaving every other mapping
untouched (the in-place update of section 4.5 step 2). -/
def replaceDate : List SyncMapping → SyncKey → SDate → List SyncMapping
  | [], _, _ => []
  | m :: t, k, d =>
      (if m.key == k then { m with lastDate := d } else m) :: replaceDate t k d

/-- Modelled from the spec: one step of section 4.5 step 2 — no mapping
creates an external event and stores a new mapping, an equal stored date
is an idempotent skip, and a differing stored date updates the event and
the mapping in place. -/
def syncStep (acc : SyncState × SyncCounts) (f : SyncKey × SDate) :
    SyncState × SyncCounts :=
  match lookup acc.1 f.1 with
  | none =>
      (⟨⟨f.1, acc.1.nextEventId, f.2⟩ :: acc.1.mappings, acc.1.nextEventId + 1⟩,
        { acc.2 with created := acc.2.created + 1 })
  | some m =>
      if m.lastDate == f.2 then
        (acc.1, { acc.2 with unchanged := acc.2.unchanged + 1 })
      else
        (⟨replaceDate acc.1.mappings f.1 f.2, acc.1.nextEventId⟩,
          { acc.2 with updated := acc.2.updated + 1 })

/-- Modelled from the spec: syncRecord of section 4.5, reconciling every
populated date field against the mapping store and aggregating the
counts. -/
def syncRecord (r : SyncedRecord) (st : SyncState) : SyncState × SyncCounts :=
  (eventFields r).foldl syncStep (st, ⟨0, 0, 0⟩)

/-- Last-synced date stored at a key, when a mapping exists. -/
def lookupDate (st : SyncState) (k : SyncKey) : Option SDate :=
  (lookup st k).map SyncMapping.lastDate

theorem find_replace_self (l : List SyncMapping) (k : SyncKey) (d : SDate) :
    (replaceDate l k d).find? (fun m => m.key == k) =
      (l.find? (fun m => m.key == k)).map fun m => { m with lastDate := d } := by
  induction l with
  | nil => rfl
  | cons m t ih =>
      by_cases hm : m.key = k
      · have hb : (m.key == k) = true := by simp [hm]
        simp [replaceDate, List.find?, hb]
      · have hb : (m.key == k) = false := by simp [hm]
        simp [replaceDate, List.find?, hb, ih]

theorem find_replace_other (l : List SyncMapping) (k : SyncKey) (d : SDate)
    (k2 : SyncKey) (hne : k2 ≠ k) :
    (replaceDate l k d).find? (fun m => m.key == k2) =
      l.find? (fun m => m.key == k2) := by
  induction l with
  | nil => rfl
  | cons m t ih =>
      by_cases hm : m.key = k
      · have hb : (m.key == k) = true := by simp [hm]
        have hb2 : (m.key == k2) = false := by
          simp [hm]
          exact fun h => hne h.symm
        simp [replaceDate, List.find?, hb, hb2, ih]
      · have hb : (m.key == k) = false := by simp [hm]
        by_cases hm2 : m.key = k2
        · have hb2 : (m.key == k2) = true := by simp [hm2]
          simp [replaceDate, List.find?, hb, hb2]
        · have hb2 : (m.key == k2) = false := by simp [hm2]
          simp [replaceDate, List.find?, hb, hb2, ih]

theorem lookupDate_syncStep_self (acc : SyncState × SyncCounts) (f : SyncKey × SDate) :
    lookupDate (syncStep acc f).1 f.1 = some f.2 := by
  unfold syncStep
  cases hl : lookup acc.1 f.1 with
  | none =>
      simp only [lookupDate, lookup, List.find?]
      simp
  | some m =>
      by_cases hm : m.lastDate = f.2
      · simp only [hm, beq_self_eq_true, if_true]
        simp [lookupDate, hl, hm]
      · have hb : (m.lastDate == f.2) = false := by simp [hm]
        simp only [hb, Bool.false_eq_true, if_false]
        simp only [lookupDate, lookup, find_replace_self]
        have hl2 : acc.1.mappings.find? (fun m => m.key == f.1) = some m := hl
        simp [hl2]

theorem lookupDate_syncStep_other (acc : SyncState × SyncCounts) (f : SyncKey × SDate)
    (k2 : SyncKey) (hne : k2 ≠ f.1) :
    lookupDate (syncStep acc f).1 k2 = lookupDate acc.1 k2 := by
  unfold syncStep
  cases hl : lookup acc.1 f.1 with
  | none =>
      have hb : (f.1 == k2) = false := by
        simp
        exact fun h => hne h.symm
      simp only [lookupDate, lookup, List.find?]
      simp [hb]
  | some m =>
      by_cases hm : m.lastDate = f.2
      · simp only [hm, beq_self_eq_true, if_true]
      · have hb : (m.lastDate == f.2) = false := by simp [hm]
        simp only [hb, Bool.false_eq_true, if_false]
        simp only [lookupDate, lookup]
        rw [find_replace_other _ _ _ _ hne]

theorem lookupDate_fold_not_mem (l : List (SyncKey × SDate)) :
    ∀ (k : SyncKey), k ∉ l.map Prod.fst → ∀ (acc : SyncState × SyncCounts),
      lookupDate ((l.foldl syncStep acc).1) k = lookupDate acc.1 k := by
  induction l with
  | nil => intro k _ acc; rfl
  | cons q t ih =>
      intro k hk acc
      simp only [List.map_cons, List.mem_cons, not_or] at hk
      rw [List.foldl_cons, ih k hk.2 (syncStep acc q),
        lookupDate_syncStep_other acc q k hk.1]

theorem lookupDate_after_fold (l : List (SyncKey × SDate))
    (hnd : (l.map Prod.fst).Nodup) :
    ∀ (acc : SyncState × SyncCounts) (p : SyncKey × SDate), p ∈ l →
      lookupDate ((l.foldl syncStep acc).1) p.1 = some p.2 := by
  induction l with
  | nil => intro acc p hp; simp at hp
  | cons q t ih =>
      intro acc p hp
      simp only [List.map_cons, List.nodup_cons] at hnd
      rw [List.foldl_cons]
      rcases List.mem_cons.mp hp with rfl | hp2
      · rw [lookupDate_fold_not_mem t p.1 hnd.1 (syncStep acc p)]
        exact lookupDate_syncStep_self acc p
      · exact ih hnd.2 (syncStep acc q) p hp2

theorem fold_unchanged (l : List (SyncKey × SDate)) :
    ∀ (st : SyncState) (c : SyncCounts),
      (∀ p ∈ l, lookupDate st p.1 = some p.2) →
      l.foldl syncStep (st, c) =
        (st, ⟨c.created, c.updated, c.unchanged + l.length⟩) := by
  induction l with
  | nil => intro st c _; simp
  | cons q t ih =>
      intro st c h
      have hq := h q (List.mem_cons_self q t)
      cases hl : lookup st q.1 with
      | none => rw [lookupDate, hl] at hq; simp at hq
      | some m =>
          have hm : m.lastDate = q.2 := by
            rw [lookupDate, hl] at hq; simpa using hq
          have hstep : syncStep (st, c) q =
              (st, { c with unchanged := c.unchanged + 1 }) := by
            unfold syncStep
            simp [hl, hm]
          rw [List.foldl_cons, hstep,
            ih st _ (fun p hp => h p (List.mem_cons_of_mem _ hp))]
          simp only [Prod.mk.injEq, SyncCounts.mk.injEq, List.length_cons,
            eq_self_iff_true, true_and]
          omega

theorem midterm_keys_shape (sid : Nat) (ds : List SDate) :
    ∀ (i : Nat) (k : SyncKey), k ∈ (midtermFields sid i ds).map Prod.fst →
      k.kind = DateFieldKind.midterm ∧ i ≤ k.occurrenceIndex := by
  induction ds with
  | nil => intro i k hk; simp [midtermFields] at hk
  | cons d t ih =>
      intro i k hk
      simp only [midtermFields, List.map_cons, List.mem_cons] at hk
      rcases hk with rfl | hk
      · exact ⟨rfl, Nat.le_refl _⟩
      · obtain ⟨h1, h2⟩ := ih (i + 1) k hk
        exact ⟨h1, by omega⟩

theorem midterm_keys_nodup (sid : Nat) (ds : List SDate) :
    ∀ i : Nat, ((midtermFields sid i ds).map Prod.fst).Nodup := by
  induction ds with
  | nil => intro i; simp [midtermFields]
  | cons d t ih =>
      intro i
      simp only [midtermFields, List.map_cons, List.nodup_cons]
      refine ⟨?_, ih (i + 1)⟩
      intro hmem
      have h2 := (midterm_keys_shape sid t (i + 1) _ hmem).2
      have h3 : i + 1 ≤ i := h2
      omega

theorem not_mem_midterm_keys (sid sid2 : Nat) (ds : List SDate) (i j : Nat)
    (kk : DateFieldKind) (hkk : kk ≠ DateFieldKind.midterm) :
    (⟨sid2, kk, j⟩ : SyncKey) ∉ (midtermFields sid i ds).map Prod.fst := by
  intro hmem
  have h := (midterm_keys_shape sid ds i _ hmem).1
  exact hkk h

theorem eventFields_keys_nodup (r : SyncedRecord) :
    ((eventFields r).map Prod.fst).Nodup := by
  rcases r with ⟨sid, fc, lc, ms, fe⟩
  have hnd := midterm_keys_nodup sid ms 0
  have hfc := not_mem_midterm_keys sid sid ms 0 0 .firstClass (by simp)
  have hlc := not_mem_midterm_keys sid sid ms 0 0 .lastClass (by simp)
  have hfe := not_mem_midterm_keys sid sid ms 0 0 .finalExam (by simp)
  have hshape := midterm_keys_shape sid ms 0
  cases fc <;> cases lc <;> cases fe <;>
    simp_all [eventFields, optField, List.nodup_append, List.nodup_cons,
      List.mem_append, List.mem_cons, SyncKey.mk.injEq, List.disjoint_left]

theorem find?_eq_none_not_mem {l : List SyncMapping} {k : SyncKey}
    (h : l.find? (fun m => m.key == k) = none) : k ∉ l.map SyncMapping.key := by
  intro hmem
  rcases List.mem_map.mp hmem with ⟨m, hm, hk⟩
  have h2 := List.find?_eq_none.mp h m hm
  simp [hk] at h2

theorem replaceDate_keys (l : List SyncMapping) (k : SyncKey) (d : SDate) :
    (replaceDate l k d).map SyncMapping.key = l.map SyncMapping.key := by
  induction l with
  | nil => rfl
  | cons m t ih =>
      by_cases hm : m.key = k
      · have hb : (m.key == k) = true := by simp [hm]
        simp [replaceDate, hb, ih]
      · have hb : (m.key == k) = false := by simp [hm]
        simp [replaceDate, hb, ih]

theorem syncStep_keys_nodup (acc : SyncState × SyncCounts) (f : SyncKey × SDate)
    (h : (acc.1.mappings.map SyncMapping.key).Nodup) :
    (((syncStep acc f).1).mappings.map SyncMapping.key).Nodup := by
  unfold syncStep
  cases hl : lookup acc.1 f.1 with
  | none =>
      have hnm : f.1 ∉ acc.1.mappings.map SyncMapping.key := find?_eq_none_not_mem hl
      simp [List.nodup_cons, hnm, h]
  | some m =>
      by_cases hm : m.lastDate = f.2
      · simp only [hm, beq_self_eq_true, if_true]
        exact h
      · have hb : (m.lastDate == f.2) = false := by simp [hm]
        simp only [hb, Bool.false_eq_true, if_false]
        simpa [replaceDate_keys] using h

theorem sync_fold_keys_nodup (l : List (SyncKey × SDate)) :
    ∀ (acc : SyncState × SyncCounts),
      (acc.1.mappings.map SyncMapping.key).Nodup →
      (((l.foldl syncStep acc).1).mappings.map SyncMapping.key).Nodup := by
  induction l with
  | nil => intro acc h; exact h
  | cons q t ih =>
      intro acc h
      rw [List.foldl_cons]
      exact ih (syncStep acc q) (syncStep_keys_nodup acc q h)

end CalendarSync

/-- Claim C3: with a well-formed mapping store (at most one mapping per
key), running syncRecord twice in succession with no change to the record
between the runs returns, on the second run, the identical mapping store
(so no external event is created or touched, and in particular no
duplicate event appears for an unchanged date) and the counts zero
created, zero updated, all fields unchanged; moreover the store produced
by a sync again has at most one mapping per key. -/
theorem c3_sync_idempotent (r : SyncedRecord) (st : SyncState)
    (hnd : (st.mappings.map SyncMapping.key).Nodup) :
    CalendarSync.syncRecord r (CalendarSync.syncRecord r st).1 =
      ((CalendarSync.syncRecord r st).1,
        ⟨0, 0, (CalendarSync.eventFields r).length⟩) ∧
    (((CalendarSync.syncRecord r st).1).mappings.map SyncMapping.key).Nodup := by
  constructor
  · have h := CalendarSync.fold_unchanged (CalendarSync.eventFields r)
      (CalendarSync.syncRecord r st).1 ⟨0, 0, 0⟩
      (fun p hp => CalendarSync.lookupDate_after_fold (CalendarSync.eventFields r)
        (CalendarSync.eventFields_keys_nodup r) (st, ⟨0, 0, 0⟩) p hp)
    simpa [CalendarSync.syncRecord] using h
  · exact CalendarSync.sync_fold_keys_nodup (CalendarSync.eventFields r)
      (st, ⟨0, 0, 0⟩) hnd

/-- Concrete record used to witness the idempotence theorem: all three
singleton date fields present and two midterms. -/
def recW : SyncedRecord :=
  ⟨7, some ⟨2026, 1, 5⟩, some ⟨2026, 4, 20⟩, [⟨2026, 2, 10⟩, ⟨2026, 3, 12⟩],
    some ⟨2026, 5, 1⟩⟩

/-- Witness for c3_sync_idempotent at the concrete record and the empty
mapping store: the second sync returns the same store and counts zero
created, zero updated, five unchanged. -/
theorem c3_sync_idempotent_witness :
    CalendarSync.syncRecord recW (CalendarSync.syncRecord recW ⟨[], 0⟩).1 =
      ((CalendarSync.syncRecord recW ⟨[], 0⟩).1, ⟨0, 0, 5⟩) ∧
    (((CalendarSync.syncRecord recW ⟨[], 0⟩).1).mappings.map SyncMapping.key).Nodup :=
  c3_sync_idempotent recW ⟨[], 0⟩ (by simp)

/-- Epoch day number of a proleptic Gregorian calendar date: days since
1970-01-01, as an ECMAScript Date computes the timestamp of a date.  All
divisions are floor divisions. -/
def daysFromCivil (y m d : Int) : Int :=
  let y2 : Int := y - (if m ≤ 2 then 1 else 0)
  let era : Int := Int.fdiv y2 400
  let yoe : Int := y2 - era * 400
  let doy : Int := Int.fdiv (153 * (m + (if 2 < m then -3 else 9)) + 2) 5 + d - 1
  let doe : Int := yoe * 365 + Int.fdiv yoe 4 - Int.fdiv yoe 100 + doy
  era * 146097 + doe - 719468

/-- Calendar date (year, month, day) of an epoch day number: the inverse
Gregorian conversion, as toISOString and the getUTC accessors perform
it. -/
def civilFromDays (z0 : Int) : Int × Int × Int :=
  let z : Int := z0 + 719468
  let era : Int := Int.fdiv z 146097
  let doe : Int := z - era * 146097
  let yoe : Int :=
    Int.fdiv (doe - Int.fdiv doe 1460 + Int.fdiv doe 36524 - Int.fdiv doe 146096) 365
  let doy : Int := doe - (365 * yoe + Int.fdiv yoe 4 - Int.fdiv yoe 100)
  let mp : Int := Int.fdiv (5 * doy + 2) 153
  let d : Int := doy - Int.fdiv (153 * mp + 2) 5 + 1
  let m : Int := mp + (if mp < 10 then 3 else -9)
  (yoe + era * 400 + (if m ≤ 2 then 1 else 0), m, d)

namespace ModalApi

/-- Timestamp, in minutes since the epoch, of new Date(y, m-1, d) on a
host whose local clock runs tz minutes ahead of UTC: local midnight of
the calendar date, that is, UTC midnight shifted back by the offset. -/
def newDateLocalMinutes (tz y m d : Int) : Int :=
  daysFromCivil y m d * 1440 - tz

/-- Calendar date written in the date part of toISOString for a timestamp
in minutes: the UTC calendar day containing the instant. -/
def toISODatePart (ts : Int) : Int × Int × Int :=
  civilFromDays (Int.fdiv ts 1440)

/-- Embedding of formatDateForInput of the api.ts modal variant
(lines 161-171) on a host with offset tz: the stored YYYY-MM-DD string is
split into its numeric triple, a local-time Date is built from it, and
the date part of toISOString is returned. -/
def formatDateForInput (tz y m d : Int) : Int × Int × Int :=
  toISODatePart (newDateLocalMinutes tz y m d)

/-- Embedding of createDateFromInput of the api.ts modal variant
(lines 173-183): the same local parse followed by the toISOString date
part, applied to the date-input value. -/
def createDateFromInput (tz y m d : Int) : Int × Int × Int :=
  toISODatePart (newDateLocalMinutes tz y m d)

end ModalApi

namespace SyllabusModal

/-- Timestamp, in minutes since the epoch, of Date.UTC(y, m-1, d, 12):
UTC noon of the calendar date, as createDateFromInput of
SyllabusModal.tsx builds it before calling toISOString. -/
def createDateFromInputMinutes (y m d : Int) : Int :=
  daysFromCivil y m d * 1440 + 720

/-- Embedding of formatDateForInput of SyllabusModal.tsx (lines 48-61)
applied to a stored instant: the getUTC accessors read the UTC calendar
date of the timestamp, with no dependence on the host offset. -/
def formatDateForInputUTC (ts : Int) : Int × Int × Int :=
  civilFromDays (Int.fdiv ts 1440)

end SyllabusModal

/-- Claim C4, failing evaluation: on a host whose clock runs 120 minutes
ahead of UTC the api.ts formatDateForInput maps the stored date
2026-01-05 to 2026-01-04, and feeding that output back through
createDateFromInput on the same host lands on 2026-01-03, while on a UTC
host and on a host 300 minutes behind UTC the same conversion is the
identity — so the conversion depends on the wall-clock offset and the
round trip is not the identity on the calendar date.  The
SyllabusModal.tsx helpers, which go through UTC accessors, return
2026-01-05 for the same stored date at every offset. -/
theorem c4_local_parse_shifts_date :
    ModalApi.formatDateForInput 120 2026 1 5 = (2026, 1, 4) ∧
    ModalApi.formatDateForInput 0 2026 1 5 = (2026, 1, 5) ∧
    ModalApi.formatDateForInput (-300) 2026 1 5 = (2026, 1, 5) ∧
    ModalApi.createDateFromInput 120 2026 1 4 = (2026, 1, 3) ∧
    SyllabusModal.formatDateForInputUTC
      (SyllabusModal.createDateFromInputMinutes 2026 1 5) = (2026, 1, 5) := by
  refine ⟨rfl, rfl, rfl, rfl, rfl⟩
